import Mathlib

/-!
# Verification of the Remi adaptive-covariance MCMC sampler (pints)

Shallow embedding of `pints.RemiACMCMC` (`src/pints/_mcmc/_remi_acmcmc.py`).
The Remi subclass overrides `ask`, `_initialise` and `tell` of the base
adaptive-covariance sampler (`pints.GlobalAdaptiveCovarianceMCMC`); the base
class is not part of the source tree, so its behaviour (the ask/tell
protocol, the accept/reject decision, the online covariance estimator and
the adaptation counter) is modelled from the specification, as flagged in
the doc comments below.  The subclass code (the proposal draw, the `loga`
initialisation and the `loga` update) is embedded from the source file.

Floating-point log-density inputs are modelled by a four-way sum
(finite rational / +inf / -inf / NaN); parameter vectors and covariance
matrices are rational-valued.  The irrational numerical primitives the
sampler calls out to (`np.exp`, the power `count ** -eta`, the
multivariate-normal sampler and the log-uniform draw) are abstracted as
arbitrary function parameters bundled in a `Prims` structure, and the
global `np.random` generator state is modelled by two cursors counting
the multivariate-normal and uniform draws consumed.
-/

namespace RemiAC

/-- Parameter vectors of dimension `P` (numpy 1-d arrays of floats,
modelled with rational entries). -/
abbrev Vec (P : ℕ) : Type := Fin P → ℚ

/-- `P × P` covariance matrices. -/
abbrev Mat (P : ℕ) : Type := Fin P → Fin P → ℚ

/-- Floating-point log-density values as passed to `tell`: a finite value
(modelled as a rational), `+inf`, `-inf`, or NaN. -/
inductive F where
  | fin (q : ℚ)
  | inf
  | ninf
  | nan
deriving DecidableEq

/-- `np.isfinite` on a log-density value. -/
def F.isFinite : F → Bool
  | .fin _ => true
  | _ => false

/-- The rational value of a finite log-density (0 on non-finite values;
only read under an `isFinite` guard, mirroring the source's control flow). -/
def F.val : F → ℚ
  | .fin q => q
  | _ => 0

/-- The two Python exception classes the sampler raises:
`RuntimeError` (protocol violation) and `ValueError` (bad value). -/
inductive Err where
  | runtimeError
  | valueError
deriving DecidableEq

/-- State of the global `np.random` generator, abstracted as two cursors
into fixed draw streams: `nIdx` counts multivariate-normal draws consumed,
`uIdx` counts uniform draws consumed. -/
structure Rng where
  nIdx : ℕ
  uIdx : ℕ
deriving DecidableEq

/-- The numerical primitives the sampler calls out to.  They compute
irrational reals in the source (`np.exp`, `count ** -eta`,
`np.random.multivariate_normal`, `np.log(np.random.uniform(0, 1))`), so
they are abstracted as arbitrary rational-valued functions; the theorems
below hold for every instantiation.  `sampleMVN mean cov i` is the draw
the generator produces at cursor position `i` when asked for a
multivariate normal with the given mean and covariance; `logU i` is the
log-uniform value produced at uniform-cursor position `i`. -/
structure Prims (P : ℕ) where
  exp : ℚ → ℚ
  powNegEta : ℚ → ℕ → ℚ
  sampleMVN : Vec P → Mat P → ℕ → Vec P
  logU : ℕ → ℚ

/-- The full sampler state.  Fields `x0`, `sigma0` are the construction
inputs; `current`, `currentLogPdf`, `proposed` the chain state (`none`
models Python `None`); `mu`, `sigma` the online covariance estimate;
`loga`, `adaptationCount` the adaptive-scale state; `eta`,
`targetAcceptance` the hyperparameters; `adaptive` is the negation of the
spec's `initial_phase` flag; `acceptedCount`, `iterations` the
diagnostics counters; `gamma` and `acceptedInd` are the per-step scratch
attributes (`self._gamma`, `self._accepted`) written by the base `tell`
and read by the Remi subclass `tell`; `rng` the generator state. -/
structure State (P : ℕ) where
  x0 : Vec P
  sigma0 : Mat P
  running : Bool
  current : Option (Vec P)
  currentLogPdf : Option ℚ
  proposed : Option (Vec P)
  mu : Vec P
  sigma : Mat P
  loga : ℚ
  adaptationCount : ℕ
  eta : ℚ
  targetAcceptance : ℚ
  adaptive : Bool
  acceptedCount : ℕ
  iterations : ℕ
  gamma : ℚ
  acceptedInd : ℚ
  rng : Rng

/-- Modelled from the spec: construction (`RemiACMCMC.__init__`, which
only forwards to the base constructor, not under `src/`).  Stores `x0`
and the seed covariance `sigma0`; nothing is initialised until the first
`ask` calls `_initialise` ("all state initializes at
construction/`_initialise()`").  Defaults: `eta = 0.6`,
`target_acceptance_rate = 0.234`, initial phase on (adaptation
suppressed).  The scratch fields start at arbitrary values (0); they are
always written before being read. -/
def mkRemi {P : ℕ} (x0 : Vec P) (sigma0 : Mat P) (rng : Rng) : State P :=
  { x0 := x0
  , sigma0 := sigma0
  , running := false
  , current := none
  , currentLogPdf := none
  , proposed := none
  , mu := x0
  , sigma := sigma0
  , loga := 0
  , adaptationCount := 0
  , eta := 3 / 5
  , targetAcceptance := 117 / 500
  , adaptive := false
  , acceptedCount := 0
  , iterations := 0
  , gamma := 0
  , acceptedInd := 0
  , rng := rng }

/-- `RemiACMCMC._initialise` (src/pints/_mcmc/_remi_acmcmc.py lines
74–81) sets `loga := 0`.  The rest is Modelled from the spec: the base
`_initialise` (class `AdaptiveCovarianceMCMC`, not under `src/`) seeds
`sigma` with `sigma0`, `mu` with `x0`, zeroes the counters, and stages
`x0` as the first proposal so that the first `ask` returns exactly `x0`
(spec section 8; asserted by the repository test
`test_flow`: `mcmc.ask() is mcmc._x0`). -/
def initialise {P : ℕ} (s : State P) : State P :=
  { s with running := true
         , current := none
         , currentLogPdf := none
         , proposed := some s.x0
         , mu := s.x0
         , sigma := s.sigma0
         , adaptationCount := 0
         , acceptedCount := 0
         , iterations := 0
         , loga := 0 }

/-- `RemiACMCMC.ask` (src/pints/_mcmc/_remi_acmcmc.py lines 55–72).  The
`super().ask()` call is Modelled from the spec: the base `ask` (not under
`src/`) initialises on the first call and otherwise leaves the state
unchanged (repeated `ask` is idempotent, not an error).  The subclass then
draws `proposed ~ MultivariateNormal(current, exp(loga) * sigma)` only if
no proposal is pending, caches it, and returns it; a pending proposal is
returned as-is without touching the generator. -/
def ask {P : ℕ} (pr : Prims P) (s : State P) : Vec P × State P :=
  let s0 := if s.running then s else initialise s
  match s0.proposed with
  | some p => (p, s0)
  | none =>
      let p := pr.sampleMVN (s0.current.getD s0.x0)
        (fun i j => pr.exp s0.loga * s0.sigma i j) s0.rng.nIdx
      (p, { s0 with proposed := some p
                  , rng := { nIdx := s0.rng.nIdx + 1, uIdx := s0.rng.uIdx } })

/-- Modelled from the spec: the accept/reject decision of the base `tell`
(not under `src/`).  A non-finite proposal log-density always rejects
without consuming a uniform draw (explicit guard); a finite one accepts
iff `log(U) < fx - current_log_pdf`, consuming one uniform draw. -/
def acceptDecision {P : ℕ} (pr : Prims P) (fx : F) (cur : ℚ) (rng : Rng) :
    Bool × Rng :=
  match fx with
  | .fin q =>
      (decide (pr.logU rng.uIdx < q - cur), { rng with uIdx := rng.uIdx + 1 })
  | _ => (false, rng)

/-- Modelled from the spec: the adaptation step of the base `tell` (spec
sections 4.2 and 4.3, class `GlobalAdaptiveCovarianceMCMC`, not under
`src/`).  When not in the initial phase: increment `adaptation_count`,
set `gamma = adaptation_count ^ (-eta)` (abstracted as `powNegEta`), then
update `sigma` with the outer product of deviations from the old `mu`,
then update `mu` — both with the same `gamma`, which is stored in the
scratch field for the subclass's `loga` update.  `x` is the post-decision
current point. -/
def adaptStep {P : ℕ} (pr : Prims P) (s : State P) : State P :=
  if s.adaptive then
    let count := s.adaptationCount + 1
    let g := pr.powNegEta s.eta count
    let x := s.current.getD s.x0
    { s with adaptationCount := count
           , gamma := g
           , sigma := fun i j =>
               (1 - g) * s.sigma i j + g * ((x - s.mu) i * (x - s.mu) j)
           , mu := fun i => (1 - g) * s.mu i + g * x i }
  else s

/-- Modelled from the spec: the base `tell` (spec section 4.1, classes
`AdaptiveCovarianceMCMC` / `GlobalAdaptiveCovarianceMCMC`, not under
`src/`).  Raises `RuntimeError` if no proposal is pending.  On the very
first call (no prior `current_log_pdf`): accepts the initial point
unconditionally when `fx` is finite, raises `ValueError` otherwise.  On
subsequent calls: runs the accept/reject decision; on acceptance
`current <- proposed`, `current_log_pdf <- fx`, `accepted_count += 1`; on
rejection both are unchanged.  Always clears the pending proposal,
increments `iterations`, records the accepted indicator, and (when not in
the initial phase) runs the adaptation step on the post-decision
`current`. -/
def tellBase {P : ℕ} (pr : Prims P) (fx : F) (s : State P) :
    Except Err (State P) :=
  match s.proposed with
  | none => .error .runtimeError
  | some prop =>
    match s.currentLogPdf with
    | none =>
      match fx with
      | .fin q =>
          .ok (adaptStep pr
            { s with current := some prop
                   , currentLogPdf := some q
                   , proposed := none
                   , acceptedCount := s.acceptedCount + 1
                   , iterations := s.iterations + 1
                   , acceptedInd := 1 })
      | _ => .error .valueError
    | some cur =>
      let ar := acceptDecision pr fx cur s.rng
      if ar.1 then
        .ok (adaptStep pr
          { s with current := some prop
                 , currentLogPdf := some fx.val
                 , proposed := none
                 , acceptedCount := s.acceptedCount + 1
                 , iterations := s.iterations + 1
                 , acceptedInd := 1
                 , rng := ar.2 })
      else
        .ok (adaptStep pr
          { s with proposed := none
                 , iterations := s.iterations + 1
                 , acceptedInd := 0
                 , rng := ar.2 })

/-- `RemiACMCMC.tell` (src/pints/_mcmc/_remi_acmcmc.py lines 83–93):
calls the base `tell`, then, if `self._adaptive`, performs
`self._loga += self._gamma * (self._accepted - self._target_acceptance)`
using the scratch values the base step just wrote, and returns
`self._current`.  A Python exception in the base call propagates and the
subclass update does not run. -/
def tell {P : ℕ} (pr : Prims P) (fx : F) (s : State P) :
    Except Err (Vec P × State P) :=
  match tellBase pr fx s with
  | .error e => .error e
  | .ok s1 =>
      let s2 :=
        if s1.adaptive then
          { s1 with loga :=
              s1.loga + s1.gamma * (s1.acceptedInd - s1.targetAcceptance) }
        else s1
      .ok (s2.current.getD s2.x0, s2)

/-- Modelled from the spec: `set_initial_phase(bool)` (base class, not
under `src/`): toggles adaptation suppression and nothing else (in the
source, `self._adaptive = not phase`). -/
def setInitialPhase {P : ℕ} (b : Bool) (s : State P) : State P :=
  { s with adaptive := !b }

/-! ## Helper lemmas -/

section Helpers

variable {P : ℕ} (pr : Prims P) (t s : State P)

/-- The adaptation step never touches the chain state, the protocol
state, the counters other than `adaptation_count`, the `loga` scale, or
the generator. -/
theorem adaptStep_frame :
    (adaptStep pr t).adaptive = t.adaptive ∧
    (adaptStep pr t).current = t.current ∧
    (adaptStep pr t).currentLogPdf = t.currentLogPdf ∧
    (adaptStep pr t).proposed = t.proposed ∧
    (adaptStep pr t).acceptedCount = t.acceptedCount ∧
    (adaptStep pr t).iterations = t.iterations ∧
    (adaptStep pr t).acceptedInd = t.acceptedInd ∧
    (adaptStep pr t).loga = t.loga ∧
    (adaptStep pr t).x0 = t.x0 ∧
    (adaptStep pr t).eta = t.eta ∧
    (adaptStep pr t).targetAcceptance = t.targetAcceptance ∧
    (adaptStep pr t).rng = t.rng := by
  unfold adaptStep
  split <;> simp

/-- With adaptation suppressed, the adaptation step is the identity. -/
theorem adaptStep_of_not_adaptive (h : t.adaptive = false) :
    adaptStep pr t = t := by
  unfold adaptStep
  rw [h]
  simp

/-- In the adaptive case, the adaptation step performs exactly the
recursive update of spec sections 4.2 and 4.3 with a single `gamma`. -/
theorem adaptStep_of_adaptive (h : t.adaptive = true) :
    (adaptStep pr t).adaptationCount = t.adaptationCount + 1 ∧
    (adaptStep pr t).gamma = pr.powNegEta t.eta (t.adaptationCount + 1) ∧
    (∀ i, (adaptStep pr t).mu i =
      (1 - (adaptStep pr t).gamma) * t.mu i +
        (adaptStep pr t).gamma * (t.current.getD t.x0) i) ∧
    (∀ i j, (adaptStep pr t).sigma i j =
      (1 - (adaptStep pr t).gamma) * t.sigma i j +
        (adaptStep pr t).gamma *
          ((t.current.getD t.x0 - t.mu) i * (t.current.getD t.x0 - t.mu) j)) := by
  unfold adaptStep
  rw [h]
  simp

/-- An `ask` on a running sampler with a pending proposal is a pure
read: it returns the cached candidate and does not change the state. -/
theorem ask_pending (p : Vec P) (hrun : s.running = true)
    (hp : s.proposed = some p) : ask pr s = (p, s) := by
  unfold ask
  rw [hrun]
  simp only [if_true, hp]

/-- After any `ask`, the sampler is running and the returned candidate is
the cached pending proposal. -/
theorem ask_post :
    (ask pr s).2.running = true ∧
    (ask pr s).2.proposed = some (ask pr s).1 := by
  unfold ask
  rcases hrun : s.running with _ | _
  · simp [initialise]
  · rcases hp : s.proposed with _ | p <;> simp [hp, hrun]

end Helpers

/-- Everything a successful base `tell` step from `s` to `s1` guarantees:
frame conditions (hyperparameters, `loga`, `x0` untouched; proposal
cleared; no multivariate-normal draw consumed), the accepted-indicator
facts, the reject-path frame, and the adaptation facts in both phases. -/
def TellPost {P : ℕ} (pr : Prims P) (s s1 : State P) : Prop :=
  s1.adaptive = s.adaptive ∧
  s1.eta = s.eta ∧
  s1.targetAcceptance = s.targetAcceptance ∧
  s1.x0 = s.x0 ∧
  s1.loga = s.loga ∧
  s1.proposed = none ∧
  s1.rng.nIdx = s.rng.nIdx ∧
  (s1.acceptedInd = 1 ∨ s1.acceptedInd = 0) ∧
  (s1.acceptedInd = 1 ↔ s1.acceptedCount = s.acceptedCount + 1) ∧
  (s1.acceptedInd = 0 →
    s1.current = s.current ∧ s1.currentLogPdf = s.currentLogPdf ∧
      s1.acceptedCount = s.acceptedCount) ∧
  (s.adaptive = false →
    s1.sigma = s.sigma ∧ s1.mu = s.mu ∧ s1.gamma = s.gamma ∧
      s1.adaptationCount = s.adaptationCount) ∧
  (s.adaptive = true →
    s1.adaptationCount = s.adaptationCount + 1 ∧
    s1.gamma = pr.powNegEta s.eta (s.adaptationCount + 1) ∧
    (∀ i, s1.mu i =
      (1 - s1.gamma) * s.mu i + s1.gamma * (s1.current.getD s1.x0) i) ∧
    (∀ i j, s1.sigma i j =
      (1 - s1.gamma) * s.sigma i j +
        s1.gamma * ((s1.current.getD s1.x0 - s.mu) i *
          (s1.current.getD s1.x0 - s.mu) j)))

section Helpers2

variable {P : ℕ} (pr : Prims P) (s : State P)

/-- Every post-decision state `t` of the base `tell` (before adaptation)
satisfies the hypotheses below; applying the adaptation step on top then
yields the full `tell` post-condition. -/
theorem tellPost_branch (t : State P)
    (h1 : t.adaptive = s.adaptive) (h2 : t.eta = s.eta)
    (h3 : t.targetAcceptance = s.targetAcceptance) (h4 : t.x0 = s.x0)
    (h5 : t.loga = s.loga) (h6 : t.proposed = none)
    (h7 : t.rng.nIdx = s.rng.nIdx)
    (h8 : t.sigma = s.sigma) (h9 : t.mu = s.mu) (h10 : t.gamma = s.gamma)
    (h11 : t.adaptationCount = s.adaptationCount)
    (hind : t.acceptedInd = 1 ∨ t.acceptedInd = 0)
    (hiff : t.acceptedInd = 1 ↔ t.acceptedCount = s.acceptedCount + 1)
    (hrej : t.acceptedInd = 0 → t.current = s.current ∧
      t.currentLogPdf = s.currentLogPdf ∧ t.acceptedCount = s.acceptedCount) :
    TellPost pr s (adaptStep pr t) := by
  obtain ⟨f1, f2, f3, f4, f5, f6, f7, f8, f9, f10, f11, f12⟩ :=
    adaptStep_frame pr t
  unfold TellPost
  refine ⟨f1.trans h1, f10.trans h2, f11.trans h3, f9.trans h4, f8.trans h5,
    f4.trans h6, by rw [f12]; exact h7, ?_, ?_, ?_, ?_, ?_⟩
  · rw [f7]; exact hind
  · rw [f7, f5]; exact hiff
  · intro h0
    rw [f7] at h0
    rw [f2, f3, f5]
    exact hrej h0
  · intro hS
    rw [adaptStep_of_not_adaptive pr t (h1.trans hS)]
    exact ⟨h8, h9, h10, h11⟩
  · intro hS
    obtain ⟨a1, a2, a3, a4⟩ := adaptStep_of_adaptive pr t (h1.trans hS)
    refine ⟨a1.trans (by rw [h11]), a2.trans (by rw [h2, h11]), ?_, ?_⟩
    · intro i
      rw [f2, f9, ← h9]
      exact a3 i
    · intro i j
      rw [f2, f9, ← h8, ← h9]
      exact a4 i j

/-- Every successful base `tell` satisfies the post-condition. -/
theorem tellBase_ok_spec (fx : F) (s1 : State P)
    (hb : tellBase pr fx s = .ok s1) : TellPost pr s s1 := by
  unfold tellBase at hb
  rcases hp : s.proposed with _ | prop <;> rw [hp] at hb
  · cases hb
  · rcases hc : s.currentLogPdf with _ | cur <;> rw [hc] at hb
    · rcases fx with q | _ | _ | _ <;> cases hb
      refine tellPost_branch pr s _ rfl rfl rfl rfl rfl rfl rfl rfl rfl rfl rfl
        (Or.inl rfl) (by simp) ?_
      intro h0
      exact absurd h0 (by norm_num)
    · simp only at hb
      split at hb <;> cases hb
      · refine tellPost_branch pr s _ rfl rfl rfl rfl rfl rfl ?_ rfl rfl rfl rfl
          (Or.inl rfl) (by simp) ?_
        · rcases fx with q | _ | _ | _ <;> rfl
        · intro h0
          exact absurd h0 (by norm_num)
      · refine tellPost_branch pr s _ rfl rfl rfl rfl rfl rfl ?_ rfl rfl rfl rfl
          (Or.inr rfl) (by simp) ?_
        · rcases fx with q | _ | _ | _ <;> rfl
        · intro h0
          exact ⟨rfl, hc.symm, rfl⟩

/-- `tell` fails exactly when the base `tell` fails, with the same
exception. -/
theorem tell_error_iff (fx : F) (e : Err) :
    tell pr fx s = .error e ↔ tellBase pr fx s = .error e := by
  unfold tell
  rcases hb : tellBase pr fx s with e' | s1 <;> simp

/-- The base `tell` raises `RuntimeError` exactly when no proposal is
pending. -/
theorem tellBase_runtime_iff (fx : F) :
    tellBase pr fx s = .error .runtimeError ↔ s.proposed = none := by
  unfold tellBase
  rcases hp : s.proposed with _ | prop
  · simp [hp]
  · rcases hc : s.currentLogPdf with _ | cur
    · rcases fx with q | _ | _ | _ <;> simp [hp]
    · simp only [hp]
      split <;> simp [hp]

/-- Characterisation of a successful Remi `tell`: it is a successful base
step followed by the subclass `loga` update, and the returned point is
the post-decision `current`. -/
theorem tell_ok_spec (fx : F) (y : Vec P) (r : State P)
    (ht : tell pr fx s = .ok (y, r)) :
    ∃ s1, tellBase pr fx s = .ok s1 ∧
      r = (if s1.adaptive then
        { s1 with loga :=
            s1.loga + s1.gamma * (s1.acceptedInd - s1.targetAcceptance) }
        else s1) ∧
      y = r.current.getD r.x0 := by
  unfold tell at ht
  rcases hb : tellBase pr fx s with e | s1 <;> rw [hb] at ht
  · cases ht
  · refine ⟨s1, rfl, ?_⟩
    injection ht with h
    injection h with hy hr
    subst hy
    subst hr
    exact ⟨rfl, rfl⟩

/-- A successful base step in the initial phase is followed by no `loga`
update. -/
theorem tell_eq_of_base (fx : F) (s1 : State P)
    (hb : tellBase pr fx s = .ok s1) (hA : s1.adaptive = false) :
    tell pr fx s = .ok (s1.current.getD s1.x0, s1) := by
  unfold tell
  rw [hb]
  simp only [hA, Bool.false_eq_true, if_false]

/-- A successful base step outside the initial phase is followed by the
subclass `loga` update. -/
theorem tell_eq_of_base_adaptive (fx : F) (s1 : State P)
    (hb : tellBase pr fx s = .ok s1) (hA : s1.adaptive = true) :
    tell pr fx s = .ok (s1.current.getD s1.x0,
      { s1 with loga :=
          s1.loga + s1.gamma * (s1.acceptedInd - s1.targetAcceptance) }) := by
  unfold tell
  rw [hb]
  simp only [hA, if_true]

end Helpers2

/-! ## Claim theorems -/

/-- C1: For every `tell` call completed outside the initial phase, the
adaptive scale state is updated exactly as `adaptation_count += 1`,
`gamma = adaptation_count ^ (-eta)` (the abstracted power primitive at
the incremented count), and `log_a += gamma * (accepted_indicator -
target_acceptance_rate)` with `accepted_indicator` 1 if the
just-processed proposal was accepted (equivalently, the accepted count
grew) and 0 otherwise; and the `gamma` stored and used in the `log_a`
update is the identical value used in that step's covariance update. -/
theorem tell_adaptive_scale_update {P : ℕ} (pr : Prims P) (s : State P)
    (fx : F) (y : Vec P) (r : State P)
    (hadap : s.adaptive = true)
    (ht : tell pr fx s = .ok (y, r)) :
    r.adaptationCount = s.adaptationCount + 1 ∧
    r.gamma = pr.powNegEta s.eta (s.adaptationCount + 1) ∧
    r.loga = s.loga + r.gamma * (r.acceptedInd - s.targetAcceptance) ∧
    (r.acceptedInd = 1 ∨ r.acceptedInd = 0) ∧
    (r.acceptedInd = 1 ↔ r.acceptedCount = s.acceptedCount + 1) ∧
    (∀ i j, r.sigma i j =
      (1 - r.gamma) * s.sigma i j +
        r.gamma * ((r.current.getD r.x0 - s.mu) i *
          (r.current.getD r.x0 - s.mu) j)) := by
  obtain ⟨s1, hb, hr, hy⟩ := tell_ok_spec pr s fx y r ht
  have hpost := tellBase_ok_spec pr s fx s1 hb
  unfold TellPost at hpost
  obtain ⟨p1, p2, p3, p4, p5, p6, p7, p8, p9, p10, p11, p12⟩ := hpost
  obtain ⟨a1, a2, a3, a4⟩ := p12 hadap
  have had1 : s1.adaptive = true := p1.trans hadap
  rw [had1] at hr
  simp only [if_true] at hr
  subst hr
  refine ⟨a1, a2, ?_, p8, p9, a4⟩
  show s1.loga + s1.gamma * (s1.acceptedInd - s1.targetAcceptance) =
    s.loga + s1.gamma * (s1.acceptedInd - s.targetAcceptance)
  rw [p5, p3]

/-- C2: In every adaptive step, with `x` the post-decision current point
(which is also the returned chain sample), `sigma` is updated to
`(1 - gamma) * sigma + gamma * outer(x - mu, x - mu)` with the
outer-product term centered at the pre-update (old) `mu`, and `mu` is
then updated to `(1 - gamma) * mu + gamma * x`. -/
theorem tell_covariance_mean_update {P : ℕ} (pr : Prims P) (s : State P)
    (fx : F) (y : Vec P) (r : State P)
    (hadap : s.adaptive = true)
    (ht : tell pr fx s = .ok (y, r)) :
    y = r.current.getD r.x0 ∧
    (∀ i j, r.sigma i j =
      (1 - r.gamma) * s.sigma i j +
        r.gamma * ((y - s.mu) i * (y - s.mu) j)) ∧
    (∀ i, r.mu i = (1 - r.gamma) * s.mu i + r.gamma * y i) := by
  obtain ⟨s1, hb, hr, hy⟩ := tell_ok_spec pr s fx y r ht
  have hpost := tellBase_ok_spec pr s fx s1 hb
  unfold TellPost at hpost
  obtain ⟨p1, p2, p3, p4, p5, p6, p7, p8, p9, p10, p11, p12⟩ := hpost
  obtain ⟨a1, a2, a3, a4⟩ := p12 hadap
  have had1 : s1.adaptive = true := p1.trans hadap
  rw [had1] at hr
  simp only [if_true] at hr
  subst hr
  subst hy
  exact ⟨rfl, a4, a3⟩

/-- C3: For every `ask` call where no proposal is pending, the candidate
point is drawn by the multivariate-normal primitive with mean equal to
the current point and covariance equal to `exp(log_a) * sigma`; `log_a`
is initialised to 0 by `_initialise`, so (since `exp 0 = 1`) a draw made
from the freshly initialised estimate would use exactly the seed
covariance `sigma0`. -/
theorem ask_fresh_proposal_distribution {P : ℕ} (pr : Prims P)
    (s : State P) (c : Vec P)
    (hrun : s.running = true) (hp : s.proposed = none)
    (hc : s.current = some c) (hexp : pr.exp 0 = 1) :
    (ask pr s).1 =
      pr.sampleMVN c (fun i j => pr.exp s.loga * s.sigma i j) s.rng.nIdx ∧
    (ask pr s).2.proposed = some ((ask pr s).1) ∧
    (initialise s).loga = 0 ∧
    (∀ i j, pr.exp (initialise s).loga * (initialise s).sigma i j =
      s.sigma0 i j) := by
  refine ⟨?_, (ask_post pr s).2, rfl, ?_⟩
  · unfold ask
    rw [hrun]
    simp only [if_true, hp, hc]
    rfl
  · intro i j
    show pr.exp 0 * s.sigma0 i j = s.sigma0 i j
    rw [hexp, one_mul]

/-- C4: For every `tell` call that is not the first, a non-finite
log-density value (`+inf`, `-inf` or NaN) is never an error and is never
accepted: the call returns normally with `current`, `current_log_pdf`
and `accepted_count` all unchanged. -/
theorem tell_nonfinite_rejects {P : ℕ} (pr : Prims P) (s : State P)
    (fx : F) (p : Vec P) (cur : ℚ)
    (hc : s.currentLogPdf = some cur) (hp : s.proposed = some p)
    (hfx : fx.isFinite = false) :
    ∃ y r, tell pr fx s = .ok (y, r) ∧
      r.current = s.current ∧ r.currentLogPdf = s.currentLogPdf ∧
      r.acceptedCount = s.acceptedCount := by
  have hdec : acceptDecision pr fx cur s.rng = (false, s.rng) := by
    rcases fx with q | _ | _ | _
    · simp [F.isFinite] at hfx
    · rfl
    · rfl
    · rfl
  have hb : tellBase pr fx s = .ok (adaptStep pr
      { s with currentLogPdf := some cur, proposed := none,
               iterations := s.iterations + 1,
               acceptedInd := 0, rng := s.rng }) := by
    unfold tellBase
    rw [hp, hc]
    simp only [hdec]
    rfl
  obtain ⟨f1, f2, f3, f4, f5, f6, f7, f8, f9, f10, f11, f12⟩ :=
    adaptStep_frame pr
      { s with currentLogPdf := some cur, proposed := none,
               iterations := s.iterations + 1,
               acceptedInd := 0, rng := s.rng }
  rcases hA : s.adaptive with _ | _
  · exact ⟨_, _, tell_eq_of_base pr s fx _ hb (f1.trans hA), f2,
      f3.trans hc.symm, f5⟩
  · exact ⟨_, _, tell_eq_of_base_adaptive pr s fx _ hb (f1.trans hA), f2,
      f3.trans hc.symm, f5⟩

/-- C5: The very first `tell` call (no prior `current_log_pdf`) accepts
the initial point unconditionally when the supplied log-density is
finite (`current` becomes the pending proposal and `current_log_pdf` the
supplied value, which is also returned), and raises `ValueError` when
the supplied log-density is non-finite. -/
theorem tell_first_call {P : ℕ} (pr : Prims P) (s : State P) (fx : F)
    (p : Vec P)
    (hc : s.currentLogPdf = none) (hp : s.proposed = some p) :
    (∀ q, fx = F.fin q → ∃ r, tell pr fx s = .ok (p, r) ∧
      r.current = some p ∧ r.currentLogPdf = some q) ∧
    (fx.isFinite = false → tell pr fx s = .error .valueError) := by
  constructor
  · rintro q rfl
    have hb : tellBase pr (F.fin q) s = .ok (adaptStep pr
        { s with current := some p, currentLogPdf := some q,
                 proposed := none, acceptedCount := s.acceptedCount + 1,
                 iterations := s.iterations + 1, acceptedInd := 1 }) := by
      unfold tellBase
      rw [hp, hc]
    obtain ⟨f1, f2, f3, f4, f5, f6, f7, f8, f9, f10, f11, f12⟩ :=
      adaptStep_frame pr
        { s with current := some p, currentLogPdf := some q,
                 proposed := none, acceptedCount := s.acceptedCount + 1,
                 iterations := s.iterations + 1, acceptedInd := 1 }
    have hgd : (adaptStep pr
        { s with current := some p, currentLogPdf := some q,
                 proposed := none, acceptedCount := s.acceptedCount + 1,
                 iterations := s.iterations + 1, acceptedInd := 1 }).current.getD
        (adaptStep pr
        { s with current := some p, currentLogPdf := some q,
                 proposed := none, acceptedCount := s.acceptedCount + 1,
                 iterations := s.iterations + 1, acceptedInd := 1 }).x0 = p := by
      rw [show (adaptStep pr
        { s with current := some p, currentLogPdf := some q,
                 proposed := none, acceptedCount := s.acceptedCount + 1,
                 iterations := s.iterations + 1, acceptedInd := 1 }).current =
        some p from f2]
      rfl
    rcases hA : s.adaptive with _ | _
    · have heq := tell_eq_of_base pr s (F.fin q) _ hb (f1.trans hA)
      rw [hgd] at heq
      exact ⟨_, heq, f2, f3⟩
    · have heq := tell_eq_of_base_adaptive pr s (F.fin q) _ hb (f1.trans hA)
      rw [hgd] at heq
      exact ⟨_, heq, f2, f3⟩
  · intro hfx
    rw [tell_error_iff]
    unfold tellBase
    rw [hp, hc]
    rcases fx with q | _ | _ | _
    · simp [F.isFinite] at hfx
    · rfl
    · rfl
    · rfl

/-- C6: `tell` raises `RuntimeError` exactly when no proposal is
pending: calling `tell` on a freshly constructed sampler (before any
`ask`) raises, and calling `tell` twice without an intervening `ask`
raises on the second call.  In the embedding `tell` is a pure function
that returns only the exception in the error case, so the caller's state
is untouched by construction. -/
theorem tell_protocol_error {P : ℕ} (pr pr2 : Prims P) (s : State P)
    (fx fx2 : F) (x0 : Vec P) (sigma0 : Mat P) (rng : Rng) :
    (tell pr fx s = .error .runtimeError ↔ s.proposed = none) ∧
    tell pr2 fx2 (mkRemi x0 sigma0 rng) = .error .runtimeError ∧
    (∀ y r, tell pr fx s = .ok (y, r) →
      tell pr2 fx2 r = .error .runtimeError) := by
  refine ⟨?_, ?_, ?_⟩
  · rw [tell_error_iff]
    exact tellBase_runtime_iff pr s fx
  · rw [tell_error_iff]
    exact (tellBase_runtime_iff pr2 (mkRemi x0 sigma0 rng) fx2).mpr rfl
  · intro y r ht
    obtain ⟨s1, hb, hr, hy⟩ := tell_ok_spec pr s fx y r ht
    have hpost := tellBase_ok_spec pr s fx s1 hb
    unfold TellPost at hpost
    have hpn : r.proposed = none := by
      rw [hr]
      split <;> exact hpost.2.2.2.2.2.1
    rw [tell_error_iff]
    exact (tellBase_runtime_iff pr2 r fx2).mpr hpn

/-- C7: `ask` is idempotent: on a running sampler with a pending
proposal, `ask` returns the cached proposed point and leaves the state
(including the generator) completely unchanged, so repeated `ask` calls
with no intervening `tell` return the same point; in the pure embedding
the returned candidate is a value, so immutability of the returned
object is intrinsic. -/
theorem ask_idempotent {P : ℕ} (pr : Prims P) (s : State P) (p : Vec P)
    (hrun : s.running = true) (hp : s.proposed = some p) :
    ask pr s = (p, s) ∧
    ask pr (ask pr s).2 = ((ask pr s).1, (ask pr s).2) := by
  have h2 := ask_post pr s
  exact ⟨ask_pending pr s p hrun hp, ask_pending pr _ _ h2.1 h2.2⟩

/-- C8: While the initial phase is active (`adaptive = false`), every
completed `tell` leaves `log_a` unchanged; and `set_initial_phase`
itself — on every state `t` whatsoever, fresh samplers and post-`tell`
states included, with either flag value — never resets
`accepted_count`, `iterations` or `adaptation_count`. -/
theorem initial_phase_suppresses_adaptation {P : ℕ} (pr : Prims P)
    (s t : State P) (fx : F) (y : Vec P) (r : State P) (b : Bool) :
    (s.adaptive = false → tell pr fx s = .ok (y, r) → r.loga = s.loga) ∧
    (setInitialPhase b t).acceptedCount = t.acceptedCount ∧
    (setInitialPhase b t).iterations = t.iterations ∧
    (setInitialPhase b t).adaptationCount = t.adaptationCount := by
  refine ⟨?_, rfl, rfl, rfl⟩
  intro hadap ht
  obtain ⟨s1, hb, hr, hy⟩ := tell_ok_spec pr s fx y r ht
  have hpost := tellBase_ok_spec pr s fx s1 hb
  unfold TellPost at hpost
  have hA : s1.adaptive = false := hpost.1.trans hadap
  rw [hA] at hr
  simp only [Bool.false_eq_true, if_false] at hr
  subst hr
  exact hpost.2.2.2.2.1

/-- C9: For every initial point `x0`, the first `ask` call after
construction returns exactly `x0` (staged by `_initialise`), not a
random draw.  Parameter vectors in the embedding are rational-valued,
hence always finite. -/
theorem first_ask_returns_x0 {P : ℕ} (pr : Prims P) (x0 : Vec P)
    (sigma0 : Mat P) (rng : Rng) :
    (ask pr (mkRemi x0 sigma0 rng)).1 = x0 := rfl

/-- C10 (amended): when a proposal is pending, `ask` performs no draw
and the generator state is unchanged; an `ask` that draws a fresh
proposal consumes exactly one multivariate-normal draw, and `tell`
consumes none — so exactly one multivariate-normal draw is consumed per
completed ask/tell round whose `ask` drew a fresh proposal (every round
except the first after initialisation, whose proposal is `x0` itself). -/
theorem ask_draw_consumption {P : ℕ} (pr : Prims P) (s : State P)
    (p y : Vec P) (r : State P) (fx : F)
    (hrun : s.running = true) :
    (s.proposed = some p → (ask pr s).2.rng = s.rng) ∧
    (s.proposed = none → (ask pr s).2.rng.nIdx = s.rng.nIdx + 1) ∧
    (tell pr fx s = .ok (y, r) → r.rng.nIdx = s.rng.nIdx) := by
  refine ⟨?_, ?_, ?_⟩
  · intro hp
    rw [ask_pending pr s p hrun hp]
  · intro hp
    unfold ask
    rw [hrun]
    simp only [if_true, hp]
  · intro ht
    obtain ⟨s1, hb, hr, hy⟩ := tell_ok_spec pr s fx y r ht
    have hpost := tellBase_ok_spec pr s fx s1 hb
    unfold TellPost at hpost
    have hrr : r.rng = s1.rng := by
      rw [hr]
      split <;> rfl
    rw [hrr]
    exact hpost.2.2.2.2.2.2.1

/-! ## Concrete instances for witnesses and counterexamples -/

/-- The zero vector in one dimension. -/
def v0 : Vec 1 := fun _ => 0

/-- The all-ones vector in one dimension. -/
def v1 : Vec 1 := fun _ => 1

/-- The 1×1 identity seed covariance. -/
def m1 : Mat 1 := fun _ _ => 1

/-- A concrete instantiation of the abstract numerical primitives. -/
def prW : Prims 1 :=
  { exp := fun _ => 1
  , powNegEta := fun _ _ => 1
  , sampleMVN := fun m _ _ => m
  , logU := fun _ => -1 }

/-- A freshly constructed one-dimensional sampler. -/
def s0W : State 1 := mkRemi v0 m1 ⟨0, 0⟩

/-- A running sampler, outside the initial phase, with a pending
proposal and an established chain state. -/
def sW : State 1 :=
  { mkRemi v0 m1 ⟨0, 0⟩ with
    running := true, adaptive := true,
    current := some v0, currentLogPdf := some 0, proposed := some v1 }

/-- A running sampler with an established chain state and no pending
proposal. -/
def sAskW : State 1 :=
  { mkRemi v0 m1 ⟨0, 0⟩ with running := true, current := some v0 }

/-- The result of a concrete adaptive `tell` on `sW` (a NaN log-density,
so the step is an automatic rejection followed by adaptation). -/
def tellW : Except Err (Vec 1 × State 1) := tell prW F.nan sW

/-- Returned point of the concrete adaptive `tell`. -/
def yW : Vec 1 := (tellW.toOption.map Prod.fst).getD v0

/-- Post-state of the concrete adaptive `tell`. -/
def rW : State 1 := (tellW.toOption.map Prod.snd).getD sW

/-- `sW` with the initial phase active. -/
def sNW : State 1 := { sW with adaptive := false }

/-- Returned point of the concrete initial-phase `tell`. -/
def yNW : Vec 1 := ((tell prW F.nan sNW).toOption.map Prod.fst).getD v0

/-- Post-state of the concrete initial-phase `tell`. -/
def rNW : State 1 := ((tell prW F.nan sNW).toOption.map Prod.snd).getD sNW

/-- C10 counterexample: the very first completed ask/tell round after
construction consumes zero multivariate-normal draws (the proposal is
`x0` itself, staged by `_initialise`), refuting "exactly one
multivariate-normal draw is consumed per completed ask/tell round" as
universally stated: here the round completes (`tell` returns `ok`) and
the draw cursor stays at 0 throughout. -/
theorem first_round_consumes_no_draw :
    (ask prW s0W).2.rng.nIdx = 0 ∧
    ((tell prW (F.fin 0) (ask prW s0W).2).map fun yr => yr.2.rng.nIdx) =
      .ok 0 := ⟨rfl, rfl⟩

/-! ## Witnesses -/

/-- Witness for C1 at a concrete adaptive step. -/
theorem tell_adaptive_scale_update_witness :
    sW.adaptive = true ∧
    tell prW F.nan sW = .ok (yW, rW) ∧
    rW.loga = sW.loga + rW.gamma * (rW.acceptedInd - sW.targetAcceptance) :=
  ⟨rfl, rfl,
    (tell_adaptive_scale_update prW sW F.nan yW rW rfl rfl).2.2.1⟩

/-- Witness for C2 at a concrete adaptive step. -/
theorem tell_covariance_mean_update_witness :
    sW.adaptive = true ∧
    tell prW F.nan sW = .ok (yW, rW) ∧
    rW.mu 0 = (1 - rW.gamma) * sW.mu 0 + rW.gamma * yW 0 :=
  ⟨rfl, rfl,
    (tell_covariance_mean_update prW sW F.nan yW rW rfl rfl).2.2 0⟩

/-- Witness for C3 at a concrete fresh-proposal `ask`. -/
theorem ask_fresh_proposal_distribution_witness :
    sAskW.running = true ∧ sAskW.proposed = none ∧
    sAskW.current = some v0 ∧ prW.exp 0 = 1 ∧
    (ask prW sAskW).1 = prW.sampleMVN v0
      (fun i j => prW.exp sAskW.loga * sAskW.sigma i j) sAskW.rng.nIdx :=
  ⟨rfl, rfl, rfl, rfl,
    (ask_fresh_proposal_distribution prW sAskW v0 rfl rfl rfl rfl).1⟩

/-- Witness for C4 at a concrete `-inf` subsequent `tell`. -/
theorem tell_nonfinite_rejects_witness :
    sW.currentLogPdf = some 0 ∧ sW.proposed = some v1 ∧
    F.ninf.isFinite = false ∧
    (∃ y r, tell prW F.ninf sW = .ok (y, r) ∧
      r.current = sW.current ∧ r.currentLogPdf = sW.currentLogPdf ∧
      r.acceptedCount = sW.acceptedCount) :=
  ⟨rfl, rfl, rfl, tell_nonfinite_rejects prW sW F.ninf v1 0 rfl rfl rfl⟩

/-- Witness for C5 at a concrete first `tell` with `-inf`. -/
theorem tell_first_call_witness :
    ((ask prW s0W).2).currentLogPdf = none ∧
    ((ask prW s0W).2).proposed = some v0 ∧
    tell prW F.ninf (ask prW s0W).2 = .error .valueError :=
  ⟨rfl, rfl, (tell_first_call prW (ask prW s0W).2 F.ninf v0 rfl rfl).2 rfl⟩

/-- Witness for C6: tell-before-ask on a fresh sampler raises, and a
second consecutive `tell` after a successful one raises. -/
theorem tell_protocol_error_witness :
    tell prW (F.fin 0) (mkRemi v0 m1 ⟨0, 0⟩) = .error .runtimeError ∧
    tell prW (F.fin 0) rW = .error .runtimeError :=
  ⟨(tell_protocol_error prW prW sW F.nan (F.fin 0) v0 m1 ⟨0, 0⟩).2.1,
   (tell_protocol_error prW prW sW F.nan (F.fin 0) v0 m1
      ⟨0, 0⟩).2.2 yW rW rfl⟩

/-- Witness for C7 at a concrete pending-proposal state. -/
theorem ask_idempotent_witness :
    sW.running = true ∧ sW.proposed = some v1 ∧ ask prW sW = (v1, sW) :=
  ⟨rfl, rfl, (ask_idempotent prW sW v1 rfl rfl).1⟩

/-- Witness for C8 at a concrete initial-phase `tell`, with the counter
preservation exercised on a freshly constructed sampler. -/
theorem initial_phase_suppresses_adaptation_witness :
    sNW.adaptive = false ∧
    tell prW F.nan sNW = .ok (yNW, rNW) ∧
    rNW.loga = sNW.loga ∧
    (setInitialPhase true (mkRemi v0 m1 ⟨0, 0⟩)).acceptedCount =
      (mkRemi v0 m1 ⟨0, 0⟩).acceptedCount :=
  ⟨rfl, rfl,
    (initial_phase_suppresses_adaptation prW sNW (mkRemi v0 m1 ⟨0, 0⟩)
      F.nan yNW rNW true).1 rfl rfl,
    (initial_phase_suppresses_adaptation prW sNW (mkRemi v0 m1 ⟨0, 0⟩)
      F.nan yNW rNW true).2.1⟩

/-- Witness for C10 (amended) at concrete states with and without a
pending proposal. -/
theorem ask_draw_consumption_witness :
    sW.running = true ∧
    (ask prW sW).2.rng = sW.rng ∧
    (ask prW sAskW).2.rng.nIdx = sAskW.rng.nIdx + 1 :=
  ⟨rfl,
   (ask_draw_consumption prW sW v1 yW rW (F.fin 0) rfl).1 rfl,
   (ask_draw_consumption prW sAskW v1 yW rW (F.fin 0) rfl).2.1 rfl⟩

end RemiAC
